import Mathlib

/-!
# Bootstrap of the todolist service (`go-200/master/todolist.go`)

A shallow embedding of `package main` of the todolist launcher.

* Package-level variables (`port`, `logLevel`, ...) are the record `Globals`.
* The calls that `main` makes to its collaborators are recorded, in program order, as a
  list of `Event`s; the collaborators themselves (`utils.InitLog`, `dao.ParseDBType`,
  `web.BuildWebServer`, the server's `Run`) live in other packages and are parameters of
  the embedding (`Collaborators`).
* The command-line library is embedded as far as `main` depends on it: the precedence of
  command line, environment and default when a flag is applied, and the handling by
  `app.Run` of the error returned by the action (`cli.HandleExitCoder`).
* `strconv.Atoi` and `strconv.Itoa` are embedded from the Go standard library, with Go
  strings as byte lists and machine integers as `Int`/`Nat` reduced modulo `2 ^ w`.
-/

namespace Todolist

/-! ## Data model -/

/-- Go `error` value, as far as this program and the command-line library tell errors apart:
its message, and what `cli.HandleExitCoder` does with it. `cliExit` is the status with which
the library ends the process itself when the dynamic type of the error implements
`cli.ExitCoder` (the value of `ExitCode()`) or `cli.MultiError` (the status computed from its
members); it is `none` for every other error, called a plain error below. -/
structure GoError where
  msg : String
  cliExit : Option Int
  deriving DecidableEq, Repr

/-- A plain error with the given message, as `errors.New` makes one. -/
def GoError.plain (msg : String) : GoError := { msg := msg, cliExit := none }

/-- Modelled from the spec: `dao.DBType` is declared in package `dao`, outside this file.
The spec gives it as the closed set {Mock, DocumentStore, RelationalStore}. -/
inductive DBType where
  | Mock
  | DocumentStore
  | RelationalStore
  deriving DecidableEq, Repr

/-- Modelled from the spec: `dao.DAOMockStr`, the identifier of the mock backend, is declared
in package `dao`; the command-line table of the spec gives `mock` as the default of `--dbt`. -/
def DAOMockStr : String := "mock"

/-- Modelled from the spec: `utils.TextFormatter` is declared in package `utils`; the
command-line table of the spec gives `text` as the default of `--logf`. -/
def TextFormatter : String := "text"

/-- Modelled from the spec: `dao.ParseDBType` is defined in package `dao`. Per the spec
(Backend Selector), recognised identifiers map case-sensitively to exactly one backend kind
and any other input yields a validation error, never a default. The identifiers are `mock`
(default of `--dbt`) and the two other values listed in the usage text of that flag. The
validation error is a plain error. -/
def ParseDBType (identifier : String) : Except GoError DBType :=
  if identifier = DAOMockStr then .ok DBType.Mock
  else if identifier = "mongodb" then .ok DBType.DocumentStore
  else if identifier = "postgresql" then .ok DBType.RelationalStore
  else .error (GoError.plain ("invalid backend identifier " ++ identifier))

/-- One second as a `time.Duration` (nanoseconds). -/
def Second : Int := 1000000000

/-- The package-level configuration variables of `todolist.go` (lines 26-32). -/
structure Globals where
  port : Int
  logLevel : String
  db : String
  dbType : String
  migrationPath : String
  logFormat : String
  statisticsDuration : Int
  deriving DecidableEq, Repr

/-- Initial values of the package-level variables (lines 26-32). -/
def initialGlobals : Globals where
  port := 8020
  logLevel := "warning"
  db := ""
  dbType := DAOMockStr
  migrationPath := "migration"
  logFormat := TextFormatter
  statisticsDuration := 20 * Second

/-! ## Command-line flags -/

/-- Value carried by a flag: `cli.IntFlag`, `cli.StringFlag` or `cli.DurationFlag`. -/
inductive FlagValue where
  | int (n : Int)
  | str (s : String)
  | dur (ns : Int)
  deriving DecidableEq, Repr

/-- The variable a flag writes to (its `Destination` pointer). -/
inductive Dest where
  | port
  | db
  | dbType
  | migrationPath
  | logLevel
  | logFormat
  | statisticsDuration
  deriving DecidableEq, Repr

/-- A flag declaration, with the fields set in `app.Flags` (lines 70-121). -/
structure Flag where
  Value : FlagValue
  Name : String
  Aliases : List String
  Destination : Dest
  EnvVars : List String
  deriving DecidableEq, Repr

/-- Read the variable behind a `Destination` pointer. -/
def Globals.read (g : Globals) : Dest → FlagValue
  | .port => .int g.port
  | .db => .str g.db
  | .dbType => .str g.dbType
  | .migrationPath => .str g.migrationPath
  | .logLevel => .str g.logLevel
  | .logFormat => .str g.logFormat
  | .statisticsDuration => .dur g.statisticsDuration

/-- Write through a `Destination` pointer. The flag types fix the type of the value; a value
of another type cannot be stored and leaves the variable as it is. -/
def Globals.write (g : Globals) : Dest → FlagValue → Globals
  | .port, .int n => { g with port := n }
  | .db, .str s => { g with db := s }
  | .dbType, .str s => { g with dbType := s }
  | .migrationPath, .str s => { g with migrationPath := s }
  | .logLevel, .str s => { g with logLevel := s }
  | .logFormat, .str s => { g with logFormat := s }
  | .statisticsDuration, .dur d => { g with statisticsDuration := d }
  | _, _ => g

/-- The flag list `app.Flags` (lines 70-121). Each `Value` is read from the variable as it is
when the list is built. -/
def appFlags (g : Globals) : List Flag :=
  [ { Value := .int g.port, Name := "port", Aliases := ["p"], Destination := .port,
      EnvVars := ["APP_PORT"] },
    { Value := .str g.db, Name := "db", Aliases := ["d"], Destination := .db, EnvVars := [] },
    { Value := .str g.dbType, Name := "dbt", Aliases := ["dt"], Destination := .dbType,
      EnvVars := [] },
    { Value := .str g.migrationPath, Name := "mp", Aliases := ["m"],
      Destination := .migrationPath, EnvVars := [] },
    { Value := .str g.logLevel, Name := "logl", Aliases := ["l"], Destination := .logLevel,
      EnvVars := [] },
    { Value := .str g.logFormat, Name := "logf", Aliases := ["f"], Destination := .logFormat,
      EnvVars := [] },
    { Value := .dur g.statisticsDuration, Name := "statd", Aliases := ["s"],
      Destination := .statisticsDuration, EnvVars := [] } ]

/-- Successfully parsed overrides: the value given on the command line for a flag (looked up
by flag name, aliases already resolved) and the value of an environment variable. -/
structure Overrides where
  cmdLine : String → Option FlagValue
  environ : String → Option FlagValue

/-- No command-line argument and no environment variable. -/
def Overrides.none : Overrides where
  cmdLine := fun _ => Option.none
  environ := fun _ => Option.none

/-- First environment variable of the list that is set. -/
def lookupEnv (environ : String → Option FlagValue) : List String → Option FlagValue
  | [] => Option.none
  | v :: vs =>
    match environ v with
    | some x => some x
    | Option.none => lookupEnv environ vs

/-- The value a flag resolves to: command line first, then environment, then `Value`. -/
def flagResolved (o : Overrides) (f : Flag) : FlagValue :=
  match o.cmdLine f.Name with
  | some v => v
  | Option.none =>
    match lookupEnv o.environ f.EnvVars with
    | some v => v
    | Option.none => f.Value

/-- Applying one flag stores its resolved value in its destination. -/
def applyFlag (o : Overrides) (g : Globals) (f : Flag) : Globals :=
  g.write f.Destination (flagResolved o f)

/-- The resolved configuration: every flag of `app.Flags` applied to the variables. -/
def resolve (o : Overrides) : Globals :=
  (appFlags initialGlobals).foldl (applyFlag o) initialGlobals

/-! ## `strconv.Itoa` -/

/-- Decimal rendering of a Go `int`, as `strconv.Itoa`: digits of the magnitude, with a
leading minus sign for a negative number. -/
def Itoa (i : Int) : String :=
  if i < 0 then "-" ++ String.mk (Nat.toDigits 10 i.natAbs)
  else String.mk (Nat.toDigits 10 i.natAbs)

/-! ## Events and collaborators -/

/-- Signals of package `syscall` used by `exitHandler`. -/
inductive Signal where
  | SIGINT
  | SIGTERM
  deriving DecidableEq, Repr

/-- The observable calls of `main`, in program order. -/
inductive Event (Server : Type) where
  /-- A call `signal.Notify(sigs, ...)`: the listener channel is registered. -/
  | signalNotify (sigs : List Signal)
  /-- The `go func() { <-sigs; os.Exit(code) }()` statement of `exitHandler`. -/
  | goListener (code : Nat)
  /-- The flags were applied by `app.Run`: configuration resolved. -/
  | flagsApplied (g : Globals)
  /-- The header and the configuration table were printed (lines 127-137). -/
  | banner (g : Globals)
  /-- A call `utils.InitLog(level, format)`. -/
  | initLog (level format : String)
  /-- A call `logger.WithField("error", err).Warn(...)`. -/
  | warn (err : GoError)
  /-- A call `dao.ParseDBType(s)`. -/
  | parseDBType (s : String)
  /-- A call `web.BuildWebServer(db, migrationPath, dbt, statisticsDuration)`. -/
  | buildWebServer (db migrationPath : String) (dbt : DBType) (statisticsDuration : Int)
  /-- A call `webServer.Run(addr)`. -/
  | run (srv : Server) (addr : String)
  /-- A call `logger.Fatalf("Run error %q\n", err)`. -/
  | fatalf (err : GoError)
  /-- Inside `app.Run`, `cli.HandleExitCoder` prints the error returned by the action and
  calls `os.Exit(code)`. -/
  | cliExit (err : GoError) (code : Int)

/-- The collaborators called by the main action. A Go result pair `(v, err)` is an `Except`:
the code never reads `v` when `err != nil`. `RunReturns` tells whether the blocking call
`Run` of a server ever returns. -/
structure Collaborators (Server : Type) where
  InitLog : String → String → Option GoError
  ParseDBType : String → Except GoError DBType
  BuildWebServer : String → String → DBType → Int → Except GoError Server
  RunReturns : Server → String → Bool

/-- How a function call ends: it returns an `error` (`none` is `nil`), it never returns
because `Run` blocks, or the process is ended inside it by `os.Exit(status)`. -/
inductive Outcome where
  | returned (err : Option GoError)
  | blocked
  | exited (status : Int)
  deriving DecidableEq, Repr

/-- How `main` ends: the process exits with the status given to `os.Exit`, or keeps serving
inside `Run`. -/
inductive ProcessEnd where
  | exit (status : Int)
  | serving
  deriving DecidableEq, Repr

/-! ## The program -/

/-- Function `exitHandler` (lines 44-53): registers the channel for SIGINT and SIGTERM, starts
the goroutine that exits with status 0 on receipt, and returns. -/
def exitHandler {Server : Type} : List (Event Server) :=
  [.signalNotify [.SIGINT, .SIGTERM], .goListener 0]

/-- The main action `app.Action` (lines 125-162), run on the resolved variables. -/
def action {Server : Type} (C : Collaborators Server) (g : Globals) :
    List (Event Server) × Outcome :=
  let t0 : List (Event Server) := [.banner g, .initLog g.logLevel g.logFormat]
  let t1 : List (Event Server) :=
    match C.InitLog g.logLevel g.logFormat with
    | some err => t0 ++ [.warn err]
    | none => t0
  let t2 : List (Event Server) := t1 ++ [.parseDBType g.dbType]
  match C.ParseDBType g.dbType with
  | .error err => (t2, .returned (some err))
  | .ok dbt =>
    let t3 : List (Event Server) :=
      t2 ++ [.buildWebServer g.db g.migrationPath dbt g.statisticsDuration]
    match C.BuildWebServer g.db g.migrationPath dbt g.statisticsDuration with
    | .error err => (t3, .returned (some err))
    | .ok webServer =>
      let addr := ":" ++ Itoa g.port
      (t3 ++ [.run webServer addr],
        if C.RunReturns webServer addr then .returned none else .blocked)

/-- What the command-line library does with `os.Args` and the environment: either the flags
parse, the variables are set and the action runs, or the action is not run (help or version
requested: `nil`; arguments that do not parse: an error). -/
inductive CliInput where
  | parsed (o : Overrides)
  | noAction (err : Option GoError)

/-- The call `app.Run(os.Args)` (line 168), as the command-line library (urfave/cli v2, no
`ExitErrHandler` set) performs it. Arguments that do not parse, help and version end the call
without the action. Otherwise the flags are applied and the action runs; the library passes
the error of the action to `cli.HandleExitCoder`, which prints an error implementing
`cli.ExitCoder` or `cli.MultiError` and ends the process with that error's status, and does
nothing for any other error; `app.Run` then returns the error of the action as it is. -/
def appRun {Server : Type} (C : Collaborators Server) :
    CliInput → List (Event Server) × Outcome
  | .noAction err => ([], .returned err)
  | .parsed o =>
    let g := resolve o
    let r := action C g
    match r.2 with
    | .returned (some err) =>
      match err.cliExit with
      | some code => (.flagsApplied g :: r.1 ++ [.cliExit err code], .exited code)
      | none => (.flagsApplied g :: r.1, .returned (some err))
    | out => (.flagsApplied g :: r.1, out)

/-- Function `main` from the call of `exitHandler` on (lines 164-173): `exitHandler()`, then
`app.Run`, then `logger.Fatalf` (which exits with status 1) on an error. When the process is
ended inside `app.Run`, nothing of `main` runs after it. -/
def main {Server : Type} (C : Collaborators Server) (input : CliInput) :
    List (Event Server) × ProcessEnd :=
  let r := appRun C input
  match r.2 with
  | .returned (some err) => (exitHandler ++ r.1 ++ [.fatalf err], .exit 1)
  | .returned none => (exitHandler ++ r.1, .exit 0)
  | .blocked => (exitHandler ++ r.1, .serving)
  | .exited status => (exitHandler ++ r.1, .exit status)

/-! ## Observations on traces -/

/-- Arguments of the calls of the Server Builder, in order. -/
def buildCalls {Server : Type} : List (Event Server) → List (String × String × DBType × Int)
  | [] => []
  | .buildWebServer db mp dbt d :: es => (db, mp, dbt, d) :: buildCalls es
  | _ :: es => buildCalls es

/-- Arguments of the calls of `Run`, in order. -/
def runCalls {Server : Type} : List (Event Server) → List (Server × String)
  | [] => []
  | .run srv addr :: es => (srv, addr) :: runCalls es
  | _ :: es => runCalls es

/-- Arguments of the calls of the backend parser, in order. -/
def parseCalls {Server : Type} : List (Event Server) → List String
  | [] => []
  | .parseDBType s :: es => s :: parseCalls es
  | _ :: es => parseCalls es

/-- Errors printed by the command-line library before it ends the process, with the status,
in order. -/
def cliExits {Server : Type} : List (Event Server) → List (GoError × Int)
  | [] => []
  | .cliExit err code :: es => (err, code) :: cliExits es
  | _ :: es => cliExits es

/-- Errors passed to the warning logger, in order. -/
def warnings {Server : Type} : List (Event Server) → List GoError
  | [] => []
  | .warn err :: es => err :: warnings es
  | _ :: es => warnings es

/-- Errors passed to `logger.Fatalf`, in order. -/
def fatals {Server : Type} : List (Event Server) → List GoError
  | [] => []
  | .fatalf err :: es => err :: fatals es
  | _ :: es => fatals es

/-- Signal sets registered by `signal.Notify`, in order. -/
def registrations {Server : Type} : List (Event Server) → List (List Signal)
  | [] => []
  | .signalNotify sigs :: es => sigs :: registrations es
  | _ :: es => registrations es

/-- The trace without its warning events. -/
def withoutWarnings {Server : Type} : List (Event Server) → List (Event Server)
  | [] => []
  | .warn _ :: es => withoutWarnings es
  | e :: es => e :: withoutWarnings es

/-- Collaborators used for concrete runs: logging initialises, the backend parser is
`ParseDBType`, every server builds, and `Run` blocks. -/
def sampleCollaborators : Collaborators Unit where
  InitLog := fun _ _ => none
  ParseDBType := ParseDBType
  BuildWebServer := fun _ _ _ _ => .ok ()
  RunReturns := fun _ _ => false

/-- Command line with the given flag values and nothing else. -/
def cmdLineOf (args : List (String × FlagValue)) : Overrides where
  cmdLine := fun name => (args.find? (fun a => a.1 == name)).map (fun a => a.2)
  environ := fun _ => Option.none

/-- Overrides of the port alone: the value of `--port` and the value of `APP_PORT`. -/
def portOverrides (flag env : Option Int) : Overrides where
  cmdLine := fun name => if name = "port" then flag.map FlagValue.int else Option.none
  environ := fun name => if name = "APP_PORT" then env.map FlagValue.int else Option.none

/-- Stage numbers as the stage table of the specification gives them (section 4.4): Shutdown
Coordinator at stage 6, between server construction and `Run`. The report of a fatal error
comes last, whether `main` or the command-line library makes it. -/
def specStage {Server : Type} : Event Server → Nat
  | .flagsApplied _ => 1
  | .banner _ => 2
  | .initLog _ _ => 3
  | .warn _ => 3
  | .parseDBType _ => 4
  | .buildWebServer _ _ _ _ => 5
  | .signalNotify _ => 6
  | .goListener _ => 6
  | .run _ _ => 7
  | .fatalf _ => 8
  | .cliExit _ _ => 8

/-- Stage numbers in the order of the statements of `main`: `exitHandler()` (line 165) comes
before `app.Run` (line 168), inside which the flags are applied and the action runs. -/
def codeStage {Server : Type} : Event Server → Nat
  | .signalNotify _ => 1
  | .goListener _ => 1
  | .flagsApplied _ => 2
  | .banner _ => 3
  | .initLog _ _ => 4
  | .warn _ => 4
  | .parseDBType _ => 5
  | .buildWebServer _ _ _ _ => 6
  | .run _ _ => 7
  | .fatalf _ => 8
  | .cliExit _ _ => 8

/-- Are the numbers in ascending order? -/
def ascending : List Nat → Bool
  | a :: b :: rest => decide (a ≤ b) && ascending (b :: rest)
  | _ => true

/-! ## `strconv.Atoi` and the build timestamp -/

/-- A Go string as `strconv` reads it: a sequence of bytes. -/
abbrev GoString := List (Fin 256)

/-- The two errors of package `strconv`: `ErrSyntax` and `ErrRange`. -/
inductive NumError where
  | ErrSyntax
  | ErrRange
  deriving DecidableEq, Repr

/-- Conversion of an integer to a signed integer of `w` bits (two's complement wrap-around). -/
def wrapInt (w : Nat) (x : Int) : Int :=
  (x + 2 ^ (w - 1)) % 2 ^ w - 2 ^ (w - 1)

/-- Function `lower` of `strconv`: `c | ('x' - 'X')`. -/
def lower (c : Fin 256) : Fin 256 := c ||| 32

/-- The constant `maxUint64/10 + 1` of `ParseUint`: the least `n` with `n * 10 > maxUint64`. -/
def cutoff10 : Nat := (2 ^ 64 - 1) / 10 + 1

/-- The loop of `strconv.ParseUint` for base 10, on the `uint64` accumulator `n`. -/
def parseUintLoop (maxVal : Nat) : GoString → Nat → Nat × Option NumError
  | [], n => (n, none)
  | c :: cs, n =>
    let d : Option Nat :=
      if 48 ≤ c.val ∧ c.val ≤ 57 then some (c.val - 48)
      else if 97 ≤ (lower c).val ∧ (lower c).val ≤ 122 then some ((lower c).val - 97 + 10)
      else none
    match d with
    | none => (0, some .ErrSyntax)
    | some d =>
      if d ≥ 10 then (0, some .ErrSyntax)
      else if n ≥ cutoff10 then (maxVal, some .ErrRange)
      else
        let n10 := (n * 10) % 2 ^ 64
        let n1 := (n10 + d) % 2 ^ 64
        if n1 < n10 ∨ n1 > maxVal then (maxVal, some .ErrRange)
        else parseUintLoop maxVal cs n1

/-- Function `strconv.ParseUint(s, 10, 0)`: base 10, bit size `IntSize`. -/
def ParseUint (IntSize : Nat) (s : GoString) : Nat × Option NumError :=
  if s = [] then (0, some .ErrSyntax)
  else parseUintLoop (2 ^ IntSize - 1) s 0

/-- Function `strconv.ParseInt(s, 10, 0)`; the result is an `int64`. -/
def ParseInt (IntSize : Nat) (s : GoString) : Int × Option NumError :=
  match s with
  | [] => (0, some .ErrSyntax)
  | c :: rest =>
    let neg : Bool := decide (c = 45)
    let s1 : GoString := if c = 43 ∨ c = 45 then rest else s
    let r := ParseUint IntSize s1
    if r.2 = some .ErrSyntax then (0, r.2)
    else
      let un := r.1
      let cutoff : Nat := 2 ^ (IntSize - 1)
      if !neg ∧ un ≥ cutoff then (wrapInt 64 (cutoff - 1 : Nat), some .ErrRange)
      else if neg ∧ un > cutoff then (wrapInt 64 (-(wrapInt 64 (cutoff : Nat))), some .ErrRange)
      else
        let n := wrapInt 64 (un : Nat)
        (if neg then wrapInt 64 (-n) else n, none)

/-- The loop of the fast path of `strconv.Atoi`, on the `int` accumulator `n`. -/
def atoiLoop (IntSize : Nat) : GoString → Int → Option Int
  | [], n => some n
  | ch :: rest, n =>
    let ch1 : Fin 256 := ch - 48
    if ch1 > 9 then none
    else atoiLoop IntSize rest (wrapInt IntSize (wrapInt IntSize (n * 10) + (ch1.val : Int)))

/-- Function `strconv.Atoi` of the Go standard library, on a platform whose `int` has
`IntSize` bits (32 or 64): the fast path for short strings, `ParseInt` for the others. -/
def Atoi (IntSize : Nat) (s : GoString) : Int × Option NumError :=
  let sLen := s.length
  if (IntSize = 32 ∧ 0 < sLen ∧ sLen < 10) ∨ (IntSize = 64 ∧ 0 < sLen ∧ sLen < 19) then
    match s with
    | [] => (0, some .ErrSyntax)
    | c :: rest =>
      let signed : Bool := decide (c = 45 ∨ c = 43)
      let s1 : GoString := if signed then rest else s
      if signed ∧ s1.length < 1 then (0, some .ErrSyntax)
      else
        match atoiLoop IntSize s1 0 with
        | none => (0, some .ErrSyntax)
        | some n => (if c = 45 then wrapInt IntSize (-n) else n, none)
  else
    let r := ParseInt IntSize s
    (wrapInt IntSize r.1, r.2)

/-- Lines 61-64 of `main`: the build timestamp, 0 when `BuildStmp` does not parse. -/
def timeStmp (IntSize : Nat) (BuildStmp : GoString) : Int :=
  match Atoi IntSize BuildStmp with
  | (_, some _) => 0
  | (n, none) => n

/-- The seconds passed to `time.Unix` on line 65: `int64(timeStmp)`. -/
def buildUnixSeconds (IntSize : Nat) (BuildStmp : GoString) : Int :=
  wrapInt 64 (timeStmp IntSize BuildStmp)

/-! ## Decimal integers

What it means for a string to parse as a decimal integer, stated independently of the
parsing code above. -/

/-- Is the byte an ASCII decimal digit? -/
def isDigit (c : Fin 256) : Bool := decide (48 ≤ c.val ∧ c.val ≤ 57)

/-- Value of a digit string read in base 10, continuing from `n`. -/
def digitsAcc : Nat → GoString → Nat
  | n, [] => n
  | n, c :: cs => digitsAcc (n * 10 + (c.val - 48)) cs

/-- The integer written by a string in decimal: an optional sign `+` or `-`, then one or more
decimal digits and nothing else. -/
def decimalValue (s : GoString) : Option Int :=
  match s with
  | [] => none
  | c :: rest =>
    if c = 45 then
      if rest ≠ [] ∧ rest.all isDigit then some (-(digitsAcc 0 rest : Int)) else none
    else if c = 43 then
      if rest ≠ [] ∧ rest.all isDigit then some (digitsAcc 0 rest : Int) else none
    else if s.all isDigit then some (digitsAcc 0 s : Int) else none

/-- The string parses as a decimal integer of `IntSize` bits: it writes an integer in decimal
and that integer lies in the range of the type. -/
def parsesAs (IntSize : Nat) (s : GoString) : Option Int :=
  match decimalValue s with
  | none => none
  | some v => if -(2 ^ (IntSize - 1) : Int) ≤ v ∧ v < 2 ^ (IntSize - 1) then some v else none

/-- Bytes of an ASCII text. -/
def bytesOf (s : String) : GoString := s.toList.map (fun c => Fin.ofNat c.toNat)

/-! ## Lemmas on the trace of the action and of `main` -/

theorem action_parse_error {Server : Type} (C : Collaborators Server) (g : Globals)
    (err : GoError) (h : C.ParseDBType g.dbType = .error err) :
    action C g =
      ([.banner g, .initLog g.logLevel g.logFormat]
          ++ (C.InitLog g.logLevel g.logFormat).toList.map .warn
          ++ [.parseDBType g.dbType],
        .returned (some err)) := by
  unfold action
  cases hI : C.InitLog g.logLevel g.logFormat <;> simp [h]

theorem action_build_error {Server : Type} (C : Collaborators Server) (g : Globals)
    (dbt : DBType) (err : GoError) (hp : C.ParseDBType g.dbType = .ok dbt)
    (hb : C.BuildWebServer g.db g.migrationPath dbt g.statisticsDuration = .error err) :
    action C g =
      ([.banner g, .initLog g.logLevel g.logFormat]
          ++ (C.InitLog g.logLevel g.logFormat).toList.map .warn
          ++ [.parseDBType g.dbType,
              .buildWebServer g.db g.migrationPath dbt g.statisticsDuration],
        .returned (some err)) := by
  unfold action
  cases hI : C.InitLog g.logLevel g.logFormat <;> simp [hp, hb]

theorem action_build_ok {Server : Type} (C : Collaborators Server) (g : Globals)
    (dbt : DBType) (srv : Server) (hp : C.ParseDBType g.dbType = .ok dbt)
    (hb : C.BuildWebServer g.db g.migrationPath dbt g.statisticsDuration = .ok srv) :
    action C g =
      ([.banner g, .initLog g.logLevel g.logFormat]
          ++ (C.InitLog g.logLevel g.logFormat).toList.map .warn
          ++ [.parseDBType g.dbType,
              .buildWebServer g.db g.migrationPath dbt g.statisticsDuration,
              .run srv (":" ++ Itoa g.port)],
        if C.RunReturns srv (":" ++ Itoa g.port) then .returned none else .blocked) := by
  unfold action
  cases hI : C.InitLog g.logLevel g.logFormat <;> simp [hp, hb]

/-- The run of `main` when the backend parser fails: the trace ends with the report of the
error, made by `logger.Fatalf` (status 1) for a plain error and by the command-line library
(status of the error) otherwise. -/
theorem main_parse_error {Server : Type} (C : Collaborators Server) (o : Overrides)
    (err : GoError) (h : C.ParseDBType (resolve o).dbType = .error err) :
    main C (.parsed o) =
      (.signalNotify [.SIGINT, .SIGTERM] :: .goListener 0 :: .flagsApplied (resolve o) ::
        .banner (resolve o) :: .initLog (resolve o).logLevel (resolve o).logFormat ::
        ((C.InitLog (resolve o).logLevel (resolve o).logFormat).toList.map .warn ++
          [.parseDBType (resolve o).dbType,
            match err.cliExit with
            | none => .fatalf err
            | some code => .cliExit err code]),
        match err.cliExit with
        | none => .exit 1
        | some code => .exit code) := by
  simp only [main, appRun, action_parse_error C _ err h, exitHandler]
  cases hI : C.InitLog (resolve o).logLevel (resolve o).logFormat <;>
    cases hE : err.cliExit <;> simp

/-- The run of `main` when the backend parser succeeds and the Server Builder fails. -/
theorem main_build_error {Server : Type} (C : Collaborators Server) (o : Overrides)
    (dbt : DBType) (err : GoError)
    (hp : C.ParseDBType (resolve o).dbType = .ok dbt)
    (hb : C.BuildWebServer (resolve o).db (resolve o).migrationPath dbt
            (resolve o).statisticsDuration = .error err) :
    main C (.parsed o) =
      (.signalNotify [.SIGINT, .SIGTERM] :: .goListener 0 :: .flagsApplied (resolve o) ::
        .banner (resolve o) :: .initLog (resolve o).logLevel (resolve o).logFormat ::
        ((C.InitLog (resolve o).logLevel (resolve o).logFormat).toList.map .warn ++
          [.parseDBType (resolve o).dbType,
            .buildWebServer (resolve o).db (resolve o).migrationPath dbt
              (resolve o).statisticsDuration,
            match err.cliExit with
            | none => .fatalf err
            | some code => .cliExit err code]),
        match err.cliExit with
        | none => .exit 1
        | some code => .exit code) := by
  simp only [main, appRun, action_build_error C _ dbt err hp hb, exitHandler]
  cases hI : C.InitLog (resolve o).logLevel (resolve o).logFormat <;>
    cases hE : err.cliExit <;> simp

/-- The run of `main` when the backend parser and the Server Builder succeed. -/
theorem main_build_ok {Server : Type} (C : Collaborators Server) (o : Overrides)
    (dbt : DBType) (srv : Server)
    (hp : C.ParseDBType (resolve o).dbType = .ok dbt)
    (hb : C.BuildWebServer (resolve o).db (resolve o).migrationPath dbt
            (resolve o).statisticsDuration = .ok srv) :
    main C (.parsed o) =
      (.signalNotify [.SIGINT, .SIGTERM] :: .goListener 0 :: .flagsApplied (resolve o) ::
        .banner (resolve o) :: .initLog (resolve o).logLevel (resolve o).logFormat ::
        ((C.InitLog (resolve o).logLevel (resolve o).logFormat).toList.map .warn ++
          [.parseDBType (resolve o).dbType,
            .buildWebServer (resolve o).db (resolve o).migrationPath dbt
              (resolve o).statisticsDuration,
            .run srv (":" ++ Itoa (resolve o).port)]),
        if C.RunReturns srv (":" ++ Itoa (resolve o).port) then .exit 0 else .serving) := by
  simp only [main, appRun, action_build_ok C _ dbt srv hp hb, exitHandler]
  cases hI : C.InitLog (resolve o).logLevel (resolve o).logFormat <;>
    cases hR : C.RunReturns srv (":" ++ Itoa (resolve o).port) <;> simp

theorem registrations_append {Server : Type} (xs ys : List (Event Server)) :
    registrations (xs ++ ys) = registrations xs ++ registrations ys := by
  induction xs with
  | nil => rfl
  | cons x xs ih => cases x <;> simp [registrations, ih]

theorem registrations_warn {Server : Type} (e : Option GoError) :
    registrations ((e.toList.map .warn : List (Event Server))) = [] := by
  cases e <;> rfl

theorem registrations_main {Server : Type} (C : Collaborators Server) (input : CliInput) :
    registrations (main C input).1 = [[.SIGINT, .SIGTERM]] := by
  cases input with
  | noAction err => cases err <;> rfl
  | parsed o =>
    cases hP : C.ParseDBType (resolve o).dbType with
    | error err =>
      rw [main_parse_error C o err hP]
      cases hE : err.cliExit <;>
        simp [registrations, registrations_append, registrations_warn]
    | ok dbt =>
      cases hB : C.BuildWebServer (resolve o).db (resolve o).migrationPath dbt
          (resolve o).statisticsDuration with
      | error err =>
        rw [main_build_error C o dbt err hP hB]
        cases hE : err.cliExit <;>
          simp [registrations, registrations_append, registrations_warn]
      | ok srv =>
        rw [main_build_ok C o dbt srv hP hB]
        simp [registrations, registrations_append, registrations_warn]

theorem write_port_of_ne (g : Globals) (d : Dest) (v : FlagValue) (h : d ≠ .port) :
    (g.write d v).port = g.port := by
  cases d <;> cases v <;> simp_all [Globals.write]

theorem resolve_port (o : Overrides) :
    (resolve o).port =
      (initialGlobals.write .port
        (flagResolved o { Value := .int 8020, Name := "port", Aliases := ["p"],
                          Destination := .port, EnvVars := ["APP_PORT"] })).port := by
  simp only [resolve, appFlags, List.foldl, applyFlag]
  repeat rw [write_port_of_ne _ _ _ (by decide)]
  rfl

theorem resolve_port_cmdLine (o : Overrides) (n : Int)
    (h : o.cmdLine "port" = some (.int n)) : (resolve o).port = n := by
  rw [resolve_port]
  simp [flagResolved, h, Globals.write]

theorem resolve_port_environ (o : Overrides) (n : Int) (hc : o.cmdLine "port" = none)
    (h : o.environ "APP_PORT" = some (.int n)) : (resolve o).port = n := by
  rw [resolve_port]
  simp [flagResolved, lookupEnv, hc, h, Globals.write]

theorem resolve_port_default (o : Overrides) (hc : o.cmdLine "port" = none)
    (h : o.environ "APP_PORT" = none) : (resolve o).port = 8020 := by
  rw [resolve_port]
  simp [flagResolved, lookupEnv, hc, h, Globals.write, initialGlobals]

/-! ## The claims on the bootstrap -/

/-- C1: whenever the backend parser returns an error for the resolved backend identifier, the
backend parser has been called once, the main action returns exactly that error to its
caller `app.Run`, the Server Builder is called zero times and `Run` is never called. When
the error is a plain error (it implements neither `cli.ExitCoder` nor `cli.MultiError`, so
the command-line library leaves it alone), `app.Run` returns it to `main`, which reports
exactly it with `logger.Fatalf` and ends the process with status 1. -/
theorem parse_error_aborts_before_build {Server : Type} (C : Collaborators Server)
    (o : Overrides) (err : GoError)
    (h : C.ParseDBType (resolve o).dbType = .error err) :
    (action C (resolve o)).2 = .returned (some err) ∧
    parseCalls (main C (.parsed o)).1 = [(resolve o).dbType] ∧
    buildCalls (main C (.parsed o)).1 = [] ∧
    runCalls (main C (.parsed o)).1 = [] ∧
    (err.cliExit = none →
      (appRun C (.parsed o)).2 = .returned (some err) ∧
      (main C (.parsed o)).2 = .exit 1 ∧
      fatals (main C (.parsed o)).1 = [err] ∧
      cliExits (main C (.parsed o)).1 = []) := by
  refine ⟨by rw [action_parse_error C _ err h], ?_, ?_, ?_, ?_⟩
  · rw [main_parse_error C o err h]
    cases hI : C.InitLog (resolve o).logLevel (resolve o).logFormat <;>
      cases hE : err.cliExit <;> simp [parseCalls]
  · rw [main_parse_error C o err h]
    cases hI : C.InitLog (resolve o).logLevel (resolve o).logFormat <;>
      cases hE : err.cliExit <;> simp [buildCalls]
  · rw [main_parse_error C o err h]
    cases hI : C.InitLog (resolve o).logLevel (resolve o).logFormat <;>
      cases hE : err.cliExit <;> simp [runCalls]
  · intro hE
    refine ⟨?_, ?_⟩
    · simp only [appRun, action_parse_error C _ err h, hE]
    · rw [main_parse_error C o err h]
      cases hI : C.InitLog (resolve o).logLevel (resolve o).logFormat <;>
        simp [hE, fatals, cliExits]

/-- Run with `--dbt unknownvalue`: the parser rejects the identifier with a plain error. -/
theorem parse_error_aborts_before_build_witness :
    sampleCollaborators.ParseDBType (resolve (cmdLineOf [("dbt", .str "unknownvalue")])).dbType
        = .error (GoError.plain "invalid backend identifier unknownvalue") ∧
    (GoError.plain "invalid backend identifier unknownvalue").cliExit = none ∧
    (main sampleCollaborators (.parsed (cmdLineOf [("dbt", .str "unknownvalue")]))).2 = .exit 1 ∧
    fatals (main sampleCollaborators (.parsed (cmdLineOf [("dbt", .str "unknownvalue")]))).1
        = [GoError.plain "invalid backend identifier unknownvalue"] ∧
    buildCalls (main sampleCollaborators
        (.parsed (cmdLineOf [("dbt", .str "unknownvalue")]))).1 = [] ∧
    runCalls (main sampleCollaborators
        (.parsed (cmdLineOf [("dbt", .str "unknownvalue")]))).1 = [] :=
  have h := parse_error_aborts_before_build sampleCollaborators
    (cmdLineOf [("dbt", .str "unknownvalue")])
    (GoError.plain "invalid backend identifier unknownvalue") rfl
  ⟨rfl, rfl, (h.2.2.2.2 rfl).2.1, (h.2.2.2.2 rfl).2.2.1, h.2.2.1, h.2.2.2.1⟩

/-- C2: when the backend parser and the Server Builder both succeed, the Server Builder is
called exactly once, with the resolved connection string, the resolved migration path, the
backend kind returned by the parser and the resolved statistics interval, and `Run` is then
called exactly once, on the server that was built, with the address made of a colon and the
decimal rendering of the resolved port; nothing is reported as fatal. -/
theorem build_once_then_run_once {Server : Type} (C : Collaborators Server) (o : Overrides)
    (dbt : DBType) (srv : Server)
    (hp : C.ParseDBType (resolve o).dbType = .ok dbt)
    (hb : C.BuildWebServer (resolve o).db (resolve o).migrationPath dbt
            (resolve o).statisticsDuration = .ok srv) :
    buildCalls (main C (.parsed o)).1 =
        [((resolve o).db, (resolve o).migrationPath, dbt, (resolve o).statisticsDuration)] ∧
    runCalls (main C (.parsed o)).1 = [(srv, ":" ++ Itoa (resolve o).port)] ∧
    (∃ pre : List (Event Server), (main C (.parsed o)).1 =
        pre ++ [.buildWebServer (resolve o).db (resolve o).migrationPath dbt
                  (resolve o).statisticsDuration,
                .run srv (":" ++ Itoa (resolve o).port)] ∧
        buildCalls pre = [] ∧ runCalls pre = []) ∧
    fatals (main C (.parsed o)).1 = [] := by
  rw [main_build_ok C o dbt srv hp hb]
  cases hI : C.InitLog (resolve o).logLevel (resolve o).logFormat <;>
    simp [fatals, buildCalls, runCalls]
  · exact ⟨[.signalNotify [.SIGINT, .SIGTERM], .goListener 0, .flagsApplied (resolve o),
      .banner (resolve o), .initLog (resolve o).logLevel (resolve o).logFormat,
      .parseDBType (resolve o).dbType], by simp [buildCalls, runCalls]⟩
  · rename_i e
    exact ⟨[.signalNotify [.SIGINT, .SIGTERM], .goListener 0, .flagsApplied (resolve o),
      .banner (resolve o), .initLog (resolve o).logLevel (resolve o).logFormat, .warn e,
      .parseDBType (resolve o).dbType], by simp [buildCalls, runCalls]⟩

/-- Run with `--port 9090 --dbt mock`: backend kind Mock and address `:9090`. -/
theorem build_once_then_run_once_witness :
    sampleCollaborators.ParseDBType
        (resolve (cmdLineOf [("port", .int 9090), ("dbt", .str "mock")])).dbType
      = .ok DBType.Mock ∧
    buildCalls (main sampleCollaborators
        (.parsed (cmdLineOf [("port", .int 9090), ("dbt", .str "mock")]))).1 =
      [("", "migration", DBType.Mock, 20000000000)] ∧
    runCalls (main sampleCollaborators
        (.parsed (cmdLineOf [("port", .int 9090), ("dbt", .str "mock")]))).1 =
      [((), ":9090")] :=
  have h := build_once_then_run_once sampleCollaborators
    (cmdLineOf [("port", .int 9090), ("dbt", .str "mock")]) DBType.Mock ()
    rfl rfl
  ⟨rfl, h.1, h.2.1⟩

/-- C3: when the backend parser succeeds and the Server Builder returns an error, the main
action returns exactly that error to its caller `app.Run`, the Server Builder has been called
once and `Run` is never called. When the error is a plain error (it implements neither
`cli.ExitCoder` nor `cli.MultiError`), `app.Run` returns it unchanged to `main`, where
exactly that error reaches `logger.Fatalf`, and the process ends with status 1. -/
theorem build_error_returned_unmodified {Server : Type} (C : Collaborators Server)
    (o : Overrides) (dbt : DBType) (err : GoError)
    (hp : C.ParseDBType (resolve o).dbType = .ok dbt)
    (hb : C.BuildWebServer (resolve o).db (resolve o).migrationPath dbt
            (resolve o).statisticsDuration = .error err) :
    (action C (resolve o)).2 = .returned (some err) ∧
    buildCalls (main C (.parsed o)).1 =
        [((resolve o).db, (resolve o).migrationPath, dbt, (resolve o).statisticsDuration)] ∧
    runCalls (main C (.parsed o)).1 = [] ∧
    (err.cliExit = none →
      (appRun C (.parsed o)).2 = .returned (some err) ∧
      fatals (main C (.parsed o)).1 = [err] ∧
      (main C (.parsed o)).2 = .exit 1 ∧
      cliExits (main C (.parsed o)).1 = []) := by
  refine ⟨by rw [action_build_error C _ dbt err hp hb], ?_, ?_, ?_⟩
  · rw [main_build_error C o dbt err hp hb]
    cases hI : C.InitLog (resolve o).logLevel (resolve o).logFormat <;>
      cases hE : err.cliExit <;> simp [buildCalls]
  · rw [main_build_error C o dbt err hp hb]
    cases hI : C.InitLog (resolve o).logLevel (resolve o).logFormat <;>
      cases hE : err.cliExit <;> simp [runCalls]
  · intro hE
    refine ⟨?_, ?_⟩
    · simp only [appRun, action_build_error C _ dbt err hp hb, hE]
    · rw [main_build_error C o dbt err hp hb]
      cases hI : C.InitLog (resolve o).logLevel (resolve o).logFormat <;>
        simp [hE, fatals, cliExits]

/-- Run with `--dbt mongodb` and a Server Builder that fails with a plain error. -/
theorem build_error_returned_unmodified_witness :
    (GoError.plain "no reachable database").cliExit = none ∧
    (main { sampleCollaborators with
              BuildWebServer := fun _ _ _ _ => .error (GoError.plain "no reachable database") }
        (.parsed (cmdLineOf [("dbt", .str "mongodb")]))).2 = .exit 1 ∧
    fatals (main { sampleCollaborators with
              BuildWebServer := fun _ _ _ _ => .error (GoError.plain "no reachable database") }
        (.parsed (cmdLineOf [("dbt", .str "mongodb")]))).1
      = [GoError.plain "no reachable database"] ∧
    runCalls (main { sampleCollaborators with
              BuildWebServer := fun _ _ _ _ => .error (GoError.plain "no reachable database") }
        (.parsed (cmdLineOf [("dbt", .str "mongodb")]))).1 = [] :=
  have h := build_error_returned_unmodified
    { sampleCollaborators with
        BuildWebServer := fun _ _ _ _ => .error (GoError.plain "no reachable database") }
    (cmdLineOf [("dbt", .str "mongodb")]) DBType.DocumentStore
    (GoError.plain "no reachable database") rfl rfl
  ⟨rfl, (h.2.2.2 rfl).2.2.1, (h.2.2.2 rfl).2.1, h.2.2.1⟩

/-- C4: for every resolved log level and log format, whatever `utils.InitLog` returns, startup
goes on. The trace of `main` is the trace of the run in which log initialisation succeeds,
with the warning for the error of `utils.InitLog`, when there is one, placed right after
the call of `utils.InitLog`; in both runs the backend parser is called next, on the resolved
backend identifier. The run ends as the run in which log initialisation succeeds; when the
parser succeeds the Server Builder is called once with the resolved arguments, and when the
builder succeeds `Run` is called once on the built server with the resolved port. The
warnings are exactly the error returned by `utils.InitLog`: one on failure, none on success. -/
theorem init_log_failure_only_warns {Server : Type} (C : Collaborators Server)
    (o : Overrides) :
    (main C (.parsed o)).2 = (main { C with InitLog := fun _ _ => none } (.parsed o)).2 ∧
    withoutWarnings (main C (.parsed o)).1 =
      (main { C with InitLog := fun _ _ => none } (.parsed o)).1 ∧
    warnings (main C (.parsed o)).1 =
      (C.InitLog (resolve o).logLevel (resolve o).logFormat).toList ∧
    warnings (main { C with InitLog := fun _ _ => none } (.parsed o)).1 = [] ∧
    (∃ rest : List (Event Server),
      (main C (.parsed o)).1 =
        .signalNotify [.SIGINT, .SIGTERM] :: .goListener 0 :: .flagsApplied (resolve o) ::
          .banner (resolve o) :: .initLog (resolve o).logLevel (resolve o).logFormat ::
          ((C.InitLog (resolve o).logLevel (resolve o).logFormat).toList.map .warn ++
            .parseDBType (resolve o).dbType :: rest) ∧
      (main { C with InitLog := fun _ _ => none } (.parsed o)).1 =
        .signalNotify [.SIGINT, .SIGTERM] :: .goListener 0 :: .flagsApplied (resolve o) ::
          .banner (resolve o) :: .initLog (resolve o).logLevel (resolve o).logFormat ::
          .parseDBType (resolve o).dbType :: rest) ∧
    parseCalls (main C (.parsed o)).1 = [(resolve o).dbType] ∧
    (match C.ParseDBType (resolve o).dbType with
      | .error _ =>
        buildCalls (main C (.parsed o)).1 = [] ∧ runCalls (main C (.parsed o)).1 = []
      | .ok dbt =>
        buildCalls (main C (.parsed o)).1 =
          [((resolve o).db, (resolve o).migrationPath, dbt, (resolve o).statisticsDuration)] ∧
        match C.BuildWebServer (resolve o).db (resolve o).migrationPath dbt
            (resolve o).statisticsDuration with
        | .error _ => runCalls (main C (.parsed o)).1 = []
        | .ok srv =>
          runCalls (main C (.parsed o)).1 = [(srv, ":" ++ Itoa (resolve o).port)]) := by
  cases hP : C.ParseDBType (resolve o).dbType with
  | error err =>
    have hP0 : ({ C with InitLog := fun _ _ => none } : Collaborators Server).ParseDBType
        (resolve o).dbType = .error err := hP
    rw [main_parse_error C o err hP, main_parse_error _ o err hP0]
    cases hI : C.InitLog (resolve o).logLevel (resolve o).logFormat <;>
      cases hE : err.cliExit <;>
      simp [withoutWarnings, warnings, parseCalls, buildCalls, runCalls]
  | ok dbt =>
    have hP0 : ({ C with InitLog := fun _ _ => none } : Collaborators Server).ParseDBType
        (resolve o).dbType = .ok dbt := hP
    cases hB : C.BuildWebServer (resolve o).db (resolve o).migrationPath dbt
        (resolve o).statisticsDuration with
    | error err =>
      have hB0 : ({ C with InitLog := fun _ _ => none } : Collaborators Server).BuildWebServer
          (resolve o).db (resolve o).migrationPath dbt (resolve o).statisticsDuration
            = .error err := hB
      rw [main_build_error C o dbt err hP hB, main_build_error _ o dbt err hP0 hB0]
      cases hI : C.InitLog (resolve o).logLevel (resolve o).logFormat <;>
        cases hE : err.cliExit <;>
        simp [withoutWarnings, warnings, parseCalls, buildCalls, runCalls, hB]
    | ok srv =>
      have hB0 : ({ C with InitLog := fun _ _ => none } : Collaborators Server).BuildWebServer
          (resolve o).db (resolve o).migrationPath dbt (resolve o).statisticsDuration
            = .ok srv := hB
      rw [main_build_ok C o dbt srv hP hB, main_build_ok _ o dbt srv hP0 hB0]
      cases hI : C.InitLog (resolve o).logLevel (resolve o).logFormat <;>
        simp [withoutWarnings, warnings, parseCalls, buildCalls, runCalls, hB]

/-- C6: with no command-line and no environment override the resolved configuration is the
initial one: port 8020, backend identifier the mock identifier (which the backend parser maps
to the Mock kind), migration path `migration`, log level `warning`, log format `text`,
statistics interval 20 seconds, empty connection string; and the declared default of every
flag is the initial value of the variable it writes to. -/
theorem defaults_resolved :
    resolve Overrides.none = initialGlobals ∧
    (resolve Overrides.none).port = 8020 ∧
    (resolve Overrides.none).dbType = DAOMockStr ∧
    ParseDBType (resolve Overrides.none).dbType = .ok DBType.Mock ∧
    (resolve Overrides.none).migrationPath = "migration" ∧
    (resolve Overrides.none).logLevel = "warning" ∧
    (resolve Overrides.none).logFormat = "text" ∧
    (resolve Overrides.none).statisticsDuration = 20 * Second ∧
    (resolve Overrides.none).db = "" ∧
    (appFlags initialGlobals).map (fun f => f.Value) =
      (appFlags initialGlobals).map (fun f => initialGlobals.read f.Destination) := by
  refine ⟨rfl, rfl, rfl, rfl, rfl, rfl, rfl, rfl, rfl, rfl⟩

/-- C7: at every call of `Run` in an execution of `main`, the termination listener has been
registered before the call, exactly once, for SIGINT and SIGTERM; nothing is registered from
the call on, so the listener is registered exactly once in the whole execution. -/
theorem listener_registered_before_run {Server : Type} (C : Collaborators Server)
    (input : CliInput) (pre post : List (Event Server)) (srv : Server) (addr : String)
    (h : (main C input).1 = pre ++ .run srv addr :: post) :
    registrations pre = [[.SIGINT, .SIGTERM]] ∧
    registrations (.run srv addr :: post) = [] ∧
    registrations (main C input).1 = [[.SIGINT, .SIGTERM]] := by
  have hall := registrations_main C input
  have hhead : ∃ rest, (main C input).1 = .signalNotify [.SIGINT, .SIGTERM] :: rest := by
    unfold main
    generalize appRun C input = r
    obtain ⟨t, out⟩ := r
    cases out with
    | blocked => exact ⟨_, rfl⟩
    | exited status => exact ⟨_, rfl⟩
    | returned err => cases err <;> exact ⟨_, rfl⟩
  obtain ⟨rest, hrest⟩ := hhead
  refine ⟨?_, ?_, hall⟩
  · cases pre with
    | nil => rw [hrest] at h; simp at h
    | cons e pre' =>
      rw [h, registrations_append] at hall
      rw [hrest] at h
      simp only [List.cons_append, List.cons.injEq] at h
      obtain ⟨he, -⟩ := h
      subst he
      simp only [registrations, List.cons_append, List.cons.injEq, true_and,
        List.append_eq_nil] at hall ⊢
      exact hall.1
  · cases pre with
    | nil => rw [hrest] at h; simp at h
    | cons e pre' =>
      rw [h, registrations_append] at hall
      rw [hrest] at h
      simp only [List.cons_append, List.cons.injEq] at h
      obtain ⟨he, -⟩ := h
      subst he
      simp only [registrations, List.cons_append, List.cons.injEq, true_and,
        List.append_eq_nil] at hall ⊢
      exact hall.2

/-- Run with the default configuration, split at its call of `Run`. -/
theorem listener_registered_before_run_witness :
    (main sampleCollaborators (.parsed Overrides.none)).1 =
      [.signalNotify [.SIGINT, .SIGTERM], .goListener 0, .flagsApplied initialGlobals,
        .banner initialGlobals, .initLog "warning" "text", .parseDBType "mock",
        .buildWebServer "" "migration" DBType.Mock 20000000000] ++ .run () ":8020" :: [] ∧
    registrations ([.signalNotify [.SIGINT, .SIGTERM], .goListener 0,
        .flagsApplied initialGlobals, .banner initialGlobals, .initLog "warning" "text",
        .parseDBType "mock", .buildWebServer "" "migration" DBType.Mock 20000000000] :
          List (Event Unit)) = [[.SIGINT, .SIGTERM]] ∧
    registrations (main sampleCollaborators (.parsed Overrides.none)).1 =
      [[.SIGINT, .SIGTERM]] :=
  have h := listener_registered_before_run sampleCollaborators (.parsed Overrides.none)
    [.signalNotify [.SIGINT, .SIGTERM], .goListener 0, .flagsApplied initialGlobals,
      .banner initialGlobals, .initLog "warning" "text", .parseDBType "mock",
      .buildWebServer "" "migration" DBType.Mock 20000000000] [] () ":8020" rfl
  ⟨rfl, h.1, h.2.2⟩

/-- C8, as stated, fails: in the run with default configuration the listener is registered
first, before the flags are applied and before the server is constructed, so the events are
not in the order of the stage table; and in the run with `--dbt unknownvalue`, which aborts
with status 1, the listener has been registered all the same. -/
theorem stage_table_order_counterexample :
    (main sampleCollaborators (.parsed Overrides.none)).1 =
      [.signalNotify [.SIGINT, .SIGTERM], .goListener 0, .flagsApplied initialGlobals,
        .banner initialGlobals, .initLog "warning" "text", .parseDBType "mock",
        .buildWebServer "" "migration" DBType.Mock 20000000000, .run () ":8020"] ∧
    ascending ((main sampleCollaborators (.parsed Overrides.none)).1.map specStage) = false ∧
    (main sampleCollaborators (.parsed (cmdLineOf [("dbt", .str "unknownvalue")]))).2
      = .exit 1 ∧
    registrations (main sampleCollaborators
      (.parsed (cmdLineOf [("dbt", .str "unknownvalue")]))).1 = [[.SIGINT, .SIGTERM]] :=
  ⟨rfl, rfl, rfl, rfl⟩

/-- C8, amended: the stages run one after the other in the order of the statements of
`main`: install the Shutdown Coordinator (registration, then the listener goroutine), resolve
configuration, emit banner, initialise logging (with its warning when it fails), parse backend
kind, construct server, run server. Every execution in which the flags parse starts with the
first five and calls the backend parser; the Shutdown Coordinator is installed first and
never again. When the backend parser fails, nothing follows but the report of its error: the
server is neither constructed nor run. When the parser succeeds the server is constructed,
and when the construction fails nothing follows but the report of its error: the server is
not run. When both succeed the server is run, last. The report is made by `logger.Fatalf`
for a plain error and by the command-line library for an error it handles itself. -/
theorem stages_in_code_order {Server : Type} (C : Collaborators Server) (o : Overrides) :
    ascending ((main C (.parsed o)).1.map codeStage) = true ∧
    (∃ rest : List (Event Server),
      (main C (.parsed o)).1 =
        .signalNotify [.SIGINT, .SIGTERM] :: .goListener 0 :: .flagsApplied (resolve o) ::
          .banner (resolve o) :: .initLog (resolve o).logLevel (resolve o).logFormat ::
          ((C.InitLog (resolve o).logLevel (resolve o).logFormat).toList.map .warn ++
            .parseDBType (resolve o).dbType :: rest) ∧
      registrations rest = [] ∧
      (match C.ParseDBType (resolve o).dbType with
        | .error err =>
          rest = [match err.cliExit with
                  | none => .fatalf err
                  | some code => .cliExit err code]
        | .ok dbt =>
          match C.BuildWebServer (resolve o).db (resolve o).migrationPath dbt
              (resolve o).statisticsDuration with
          | .error err =>
            rest = [.buildWebServer (resolve o).db (resolve o).migrationPath dbt
                      (resolve o).statisticsDuration,
                    match err.cliExit with
                    | none => .fatalf err
                    | some code => .cliExit err code]
          | .ok srv =>
            rest = [.buildWebServer (resolve o).db (resolve o).migrationPath dbt
                      (resolve o).statisticsDuration,
                    .run srv (":" ++ Itoa (resolve o).port)])) ∧
    registrations (main C (.parsed o)).1 = [[.SIGINT, .SIGTERM]] ∧
    (match C.ParseDBType (resolve o).dbType with
      | .error _ =>
        buildCalls (main C (.parsed o)).1 = [] ∧ runCalls (main C (.parsed o)).1 = []
      | .ok dbt =>
        match C.BuildWebServer (resolve o).db (resolve o).migrationPath dbt
            (resolve o).statisticsDuration with
        | .error _ =>
          (buildCalls (main C (.parsed o)).1).length = 1 ∧
            runCalls (main C (.parsed o)).1 = []
        | .ok _ =>
          (buildCalls (main C (.parsed o)).1).length = 1 ∧
            (runCalls (main C (.parsed o)).1).length = 1) := by
  refine ⟨?_, ?_, registrations_main C (.parsed o), ?_⟩
  · cases hP : C.ParseDBType (resolve o).dbType with
    | error err =>
      rw [main_parse_error C o err hP]
      cases hI : C.InitLog (resolve o).logLevel (resolve o).logFormat <;>
        cases hE : err.cliExit <;> simp [ascending, codeStage]
    | ok dbt =>
      cases hB : C.BuildWebServer (resolve o).db (resolve o).migrationPath dbt
          (resolve o).statisticsDuration with
      | error err =>
        rw [main_build_error C o dbt err hP hB]
        cases hI : C.InitLog (resolve o).logLevel (resolve o).logFormat <;>
          cases hE : err.cliExit <;> simp [ascending, codeStage]
      | ok srv =>
        rw [main_build_ok C o dbt srv hP hB]
        cases hI : C.InitLog (resolve o).logLevel (resolve o).logFormat <;>
          simp [ascending, codeStage]
  · cases hP : C.ParseDBType (resolve o).dbType with
    | error err =>
      rw [main_parse_error C o err hP]
      refine ⟨_, rfl, ?_, rfl⟩
      cases hE : err.cliExit <;> rfl
    | ok dbt =>
      cases hB : C.BuildWebServer (resolve o).db (resolve o).migrationPath dbt
          (resolve o).statisticsDuration with
      | error err =>
        rw [main_build_error C o dbt err hP hB]
        refine ⟨_, rfl, ?_, ?_⟩
        · cases hE : err.cliExit <;> rfl
        · simp only [hB]
      | ok srv =>
        rw [main_build_ok C o dbt srv hP hB]
        refine ⟨_, rfl, rfl, ?_⟩
        simp only [hB]
  · cases hP : C.ParseDBType (resolve o).dbType with
    | error err =>
      rw [main_parse_error C o err hP]
      cases hI : C.InitLog (resolve o).logLevel (resolve o).logFormat <;>
        cases hE : err.cliExit <;> simp [buildCalls, runCalls]
    | ok dbt =>
      cases hB : C.BuildWebServer (resolve o).db (resolve o).migrationPath dbt
          (resolve o).statisticsDuration with
      | error err =>
        rw [main_build_error C o dbt err hP hB]
        cases hI : C.InitLog (resolve o).logLevel (resolve o).logFormat <;>
          cases hE : err.cliExit <;> simp [buildCalls, runCalls, hB]
      | ok srv =>
        rw [main_build_ok C o dbt srv hP hB]
        cases hI : C.InitLog (resolve o).logLevel (resolve o).logFormat <;>
          simp [buildCalls, runCalls, hB]

/-- C10, as stated, fails: with `--port 0` the resolved port is 0, not positive, and `Run` is
called with the address `:0`; with `--port -1` it is called with `:-1`. -/
theorem port_not_validated_counterexample :
    (resolve (cmdLineOf [("port", .int 0)])).port = 0 ∧
    ¬ (0 < (resolve (cmdLineOf [("port", .int 0)])).port) ∧
    runCalls (main sampleCollaborators (.parsed (cmdLineOf [("port", .int 0)]))).1
      = [((), ":0")] ∧
    runCalls (main sampleCollaborators (.parsed (cmdLineOf [("port", .int (-1))]))).1
      = [((), ":-1")] :=
  ⟨rfl, by decide, rfl, rfl⟩

/-- C10, amended: the resolved port is the integer given by `--port`; when `--port` is not
given, the integer given by `APP_PORT`; when neither is given, the default 8020. It is not
validated. In every run in which the backend parser and the Server Builder succeed, `Run` is
called exactly once, with the address made of a colon and the decimal rendering of that
port, whatever its sign; and when every port supplied by `--port` or `APP_PORT` is positive,
the port is positive. -/
theorem port_positive_when_supplied_positive {Server : Type} (C : Collaborators Server)
    (o : Overrides) (dbt : DBType) (srv : Server)
    (hp : C.ParseDBType (resolve o).dbType = .ok dbt)
    (hb : C.BuildWebServer (resolve o).db (resolve o).migrationPath dbt
            (resolve o).statisticsDuration = .ok srv) :
    (∀ n : Int, o.cmdLine "port" = some (.int n) → (resolve o).port = n) ∧
    (o.cmdLine "port" = none →
      ∀ n : Int, o.environ "APP_PORT" = some (.int n) → (resolve o).port = n) ∧
    (o.cmdLine "port" = none → o.environ "APP_PORT" = none → (resolve o).port = 8020) ∧
    runCalls (main C (.parsed o)).1 = [(srv, ":" ++ Itoa (resolve o).port)] ∧
    ((∀ n : Int, o.cmdLine "port" = some (.int n) → 0 < n) →
      (∀ n : Int, o.environ "APP_PORT" = some (.int n) → 0 < n) →
      0 < (resolve o).port) := by
  refine ⟨fun n h => resolve_port_cmdLine o n h, fun hc n h => resolve_port_environ o n hc h,
    fun hc h => resolve_port_default o hc h, ?_, ?_⟩
  · rw [main_build_ok C o dbt srv hp hb]
    cases hI : C.InitLog (resolve o).logLevel (resolve o).logFormat <;> simp [runCalls]
  · intro hc he
    rw [resolve_port]
    simp only [flagResolved, lookupEnv]
    cases hcl : o.cmdLine "port" with
    | some v =>
      cases v with
      | int n => exact hc n hcl
      | str s => simp [Globals.write, initialGlobals]
      | dur d => simp [Globals.write, initialGlobals]
    | none =>
      cases hev : o.environ "APP_PORT" with
      | some v =>
        cases v with
        | int n => exact he n hev
        | str s => simp [Globals.write, initialGlobals]
        | dur d => simp [Globals.write, initialGlobals]
      | none => simp [Globals.write, initialGlobals]

/-- Runs with a positive port: `--port 9090` together with `APP_PORT=7000` gives the address
`:9090`, and `APP_PORT=7000` alone gives `:7000`. -/
theorem port_positive_when_supplied_positive_witness :
    sampleCollaborators.ParseDBType (resolve (portOverrides (some 9090) (some 7000))).dbType
      = .ok DBType.Mock ∧
    (resolve (portOverrides (some 9090) (some 7000))).port = 9090 ∧
    0 < (resolve (portOverrides (some 9090) (some 7000))).port ∧
    runCalls (main sampleCollaborators (.parsed (portOverrides (some 9090) (some 7000)))).1
      = [((), ":9090")] ∧
    (resolve (portOverrides none (some 7000))).port = 7000 ∧
    runCalls (main sampleCollaborators (.parsed (portOverrides none (some 7000)))).1
      = [((), ":7000")] ∧
    (resolve (portOverrides none none)).port = 8020 :=
  have h := port_positive_when_supplied_positive sampleCollaborators
    (portOverrides (some 9090) (some 7000)) DBType.Mock () rfl rfl
  have h2 := port_positive_when_supplied_positive sampleCollaborators
    (portOverrides none (some 7000)) DBType.Mock () rfl rfl
  have h3 := port_positive_when_supplied_positive sampleCollaborators
    (portOverrides none none) DBType.Mock () rfl rfl
  ⟨rfl, h.1 9090 rfl,
    h.2.2.2.2
      (fun n hn => by
        have e : (some (FlagValue.int 9090) : Option FlagValue) = some (.int n) := hn
        have e2 : (9090 : Int) = n := by injection e with e1; injection e1
        omega)
      (fun n hn => by
        have e : (some (FlagValue.int 7000) : Option FlagValue) = some (.int n) := hn
        have e2 : (7000 : Int) = n := by injection e with e1; injection e1
        omega),
    h.2.2.2.1, h2.2.1 rfl 7000 rfl, h2.2.2.2.1, h3.2.2.1 rfl rfl⟩


/-! ## Lemmas on `strconv.Atoi` -/

set_option maxRecDepth 100000 in
theorem byte_digit_iff : ∀ c : Fin 256, (c - 48 > 9) ↔ ¬ (48 ≤ c.val ∧ c.val ≤ 57) := by
  decide

set_option maxRecDepth 100000 in
theorem byte_digit_val :
    ∀ c : Fin 256, 48 ≤ c.val → ((c - 48 : Fin 256).val : Nat) = c.val - 48 := by
  decide

theorem wrapInt_eq_self (w : Nat) (hw : w = 32 ∨ w = 64) (x : Int)
    (h1 : -(2 ^ (w - 1) : Int) ≤ x) (h2 : x < 2 ^ (w - 1)) : wrapInt w x = x := by
  rcases hw with rfl | rfl <;> simp only [wrapInt] at * <;> norm_num at * <;> omega

theorem le_digitsAcc (s : GoString) : ∀ n : Nat, n ≤ digitsAcc n s := by
  induction s with
  | nil => intro n; exact Nat.le_refl n
  | cons c cs ih =>
    intro n
    have := ih (n * 10 + (c.val - 48))
    show n ≤ digitsAcc (n * 10 + (c.val - 48)) cs
    omega

theorem digitsAcc_nil (n : Nat) : digitsAcc n [] = n := rfl

theorem digitsAcc_cons (n : Nat) (c : Fin 256) (cs : GoString) :
    digitsAcc n (c :: cs) = digitsAcc (n * 10 + (c.val - 48)) cs := rfl

theorem digitsAcc_lt (s : GoString) :
    ∀ n : Nat, s.all isDigit = true → digitsAcc n s < (n + 1) * 10 ^ s.length := by
  induction s with
  | nil => intro n _; simp [digitsAcc_nil]
  | cons c cs ih =>
    intro n h
    simp only [List.all_cons, Bool.and_eq_true, isDigit, decide_eq_true_eq] at h
    have h1 := ih (n * 10 + (c.val - 48)) h.2
    simp only [digitsAcc_cons, List.length_cons]
    have h2 : n * 10 + (c.val - 48) + 1 ≤ (n + 1) * 10 := by omega
    calc digitsAcc (n * 10 + (c.val - 48)) cs
        < (n * 10 + (c.val - 48) + 1) * 10 ^ cs.length := h1
      _ ≤ ((n + 1) * 10) * 10 ^ cs.length := Nat.mul_le_mul_right _ h2
      _ = (n + 1) * 10 ^ (cs.length + 1) := by ring

theorem atoiLoop_none (w : Nat) (s : GoString) :
    ∀ n : Int, s.all isDigit = false → atoiLoop w s n = none := by
  induction s with
  | nil => intro n h; simp at h
  | cons c cs ih =>
    intro n h
    simp only [atoiLoop]
    by_cases hc : (c - 48 : Fin 256) > 9
    · simp [hc]
    · simp only [hc, if_false]
      apply ih
      have hd := (byte_digit_iff c).not.mp hc
      simp only [not_not] at hd
      simp only [List.all_cons, isDigit, Bool.and_eq_false_imp, decide_eq_true_eq] at h
      exact h hd

theorem atoiLoop_some (w : Nat) (hw : w = 32 ∨ w = 64) (s : GoString) :
    ∀ n : Nat, s.all isDigit = true → digitsAcc n s < 2 ^ (w - 1) →
      atoiLoop w s (n : Int) = some (digitsAcc n s : Int) := by
  induction s with
  | nil => intro n _ _; simp [atoiLoop, digitsAcc_nil]
  | cons c cs ih =>
    intro n h hb
    simp only [List.all_cons, Bool.and_eq_true, isDigit, decide_eq_true_eq] at h
    have hc : ¬ ((c - 48 : Fin 256) > 9) := (byte_digit_iff c).not.mpr (not_not.mpr h.1)
    have hv := byte_digit_val c h.1.1
    simp only [digitsAcc_cons] at hb
    have hle := le_digitsAcc cs (n * 10 + (c.val - 48))
    have hlt : n * 10 + (c.val - 48) < 2 ^ (w - 1) := Nat.lt_of_le_of_lt hle hb
    have hlt' : ((n * 10 + (c.val - 48) : Nat) : Int) < 2 ^ (w - 1) := by exact_mod_cast hlt
    have hpos : (0 : Int) < 2 ^ (w - 1) := by positivity
    have e1 : wrapInt w ((n : Int) * 10) = (n : Int) * 10 := by
      apply wrapInt_eq_self w hw
      · omega
      · push_cast at hlt'; omega
    have e2 : wrapInt w ((n : Int) * 10 + ((c - 48 : Fin 256).val : Int))
        = ((n * 10 + (c.val - 48) : Nat) : Int) := by
      rw [hv]
      rw [wrapInt_eq_self w hw]
      · push_cast; rfl
      · omega
      · push_cast at hlt' ⊢; omega
    simp only [atoiLoop, hc, if_false, e1, e2, digitsAcc_cons]
    exact ih _ h.2 hb

theorem parseUintLoop_nil (maxVal n : Nat) : parseUintLoop maxVal [] n = (n, none) := rfl

theorem parseUintLoop_digit (maxVal n : Nat) (c : Fin 256) (cs : GoString)
    (hc : 48 ≤ c.val ∧ c.val ≤ 57) :
    parseUintLoop maxVal (c :: cs) n =
      if n ≥ cutoff10 then (maxVal, some .ErrRange)
      else if (n * 10 % 2 ^ 64 + (c.val - 48)) % 2 ^ 64 < n * 10 % 2 ^ 64 ∨
          (n * 10 % 2 ^ 64 + (c.val - 48)) % 2 ^ 64 > maxVal then (maxVal, some .ErrRange)
      else parseUintLoop maxVal cs ((n * 10 % 2 ^ 64 + (c.val - 48)) % 2 ^ 64) := by
  have hd : ¬ (c.val - 48 ≥ 10) := by omega
  rw [parseUintLoop]
  simp only [hc, and_self, if_true, hd, if_false]

theorem parseUintLoop_nondigit (maxVal n : Nat) (c : Fin 256) (cs : GoString)
    (hc : ¬ (48 ≤ c.val ∧ c.val ≤ 57)) :
    parseUintLoop maxVal (c :: cs) n = (0, some .ErrSyntax) := by
  rw [parseUintLoop]
  simp only [hc, if_false]
  by_cases hl : 97 ≤ (lower c).val ∧ (lower c).val ≤ 122
  · have hd : (lower c).val - 97 + 10 ≥ 10 := by omega
    simp only [hl, and_self, if_true, hd]
  · simp only [hl, if_false]

theorem cutoff10_eq : cutoff10 = 1844674407370955162 := by decide

theorem parseUintLoop_ok (maxVal : Nat) (hm : maxVal < 2 ^ 64) (s : GoString) :
    ∀ n : Nat, s.all isDigit = true → digitsAcc n s ≤ maxVal →
      parseUintLoop maxVal s n = (digitsAcc n s, none) := by
  induction s with
  | nil => intro n _ _; rfl
  | cons c cs ih =>
    intro n h hb
    simp only [List.all_cons, Bool.and_eq_true, isDigit, decide_eq_true_eq] at h
    rw [digitsAcc_cons] at hb ⊢
    have hle := le_digitsAcc cs (n * 10 + (c.val - 48))
    have h1 : n * 10 + (c.val - 48) ≤ maxVal := Nat.le_trans hle hb
    have h2 : ¬ (n ≥ cutoff10) := by rw [cutoff10_eq]; omega
    have h3 : n * 10 % 2 ^ 64 = n * 10 := Nat.mod_eq_of_lt (by omega)
    have h4 : (n * 10 + (c.val - 48)) % 2 ^ 64 = n * 10 + (c.val - 48) :=
      Nat.mod_eq_of_lt (by omega)
    rw [parseUintLoop_digit maxVal n c cs h.1, if_neg h2, h3, h4, if_neg (by omega)]
    exact ih _ h.2 hb

theorem parseUintLoop_err (maxVal : Nat) (s : GoString) :
    ∀ n : Nat, n ≤ maxVal → ¬ (s.all isDigit = true ∧ digitsAcc n s ≤ maxVal) →
      parseUintLoop maxVal s n = (0, some .ErrSyntax) ∨
      parseUintLoop maxVal s n = (maxVal, some .ErrRange) := by
  induction s with
  | nil =>
    intro n hn h
    exact absurd ⟨by simp, by rw [digitsAcc_nil]; exact hn⟩ h
  | cons c cs ih =>
    intro n hn h
    by_cases hc : 48 ≤ c.val ∧ c.val ≤ 57
    · rw [parseUintLoop_digit maxVal n c cs hc]
      by_cases h2 : n ≥ cutoff10
      · rw [if_pos h2]; exact Or.inr rfl
      · rw [if_neg h2]
        by_cases h3 : (n * 10 % 2 ^ 64 + (c.val - 48)) % 2 ^ 64 < n * 10 % 2 ^ 64 ∨
            (n * 10 % 2 ^ 64 + (c.val - 48)) % 2 ^ 64 > maxVal
        · rw [if_pos h3]; exact Or.inr rfl
        · rw [if_neg h3]
          rw [cutoff10_eq] at h2
          have h4 : n * 10 % 2 ^ 64 = n * 10 := Nat.mod_eq_of_lt (by omega)
          rw [h4] at h3 ⊢
          have h5 : (n * 10 + (c.val - 48)) % 2 ^ 64 = n * 10 + (c.val - 48) := by omega
          rw [h5] at h3 ⊢
          apply ih
          · omega
          · intro hcs
            apply h
            refine ⟨?_, ?_⟩
            · simp only [List.all_cons, Bool.and_eq_true, isDigit, decide_eq_true_eq]
              exact ⟨hc, hcs.1⟩
            · rw [digitsAcc_cons]; exact hcs.2
    · rw [parseUintLoop_nondigit maxVal n c cs hc]; exact Or.inl rfl

theorem ParseUint_ok (w : Nat) (hw : w = 32 ∨ w = 64) (s : GoString) (hne : s ≠ [])
    (h : s.all isDigit = true) (hb : digitsAcc 0 s ≤ 2 ^ w - 1) :
    ParseUint w s = (digitsAcc 0 s, none) := by
  unfold ParseUint
  rw [if_neg hne]
  apply parseUintLoop_ok _ _ s 0 h hb
  rcases hw with rfl | rfl <;> norm_num

theorem ParseUint_err (w : Nat) (s : GoString)
    (h : ¬ (s ≠ [] ∧ s.all isDigit = true ∧ digitsAcc 0 s ≤ 2 ^ w - 1)) :
    ParseUint w s = (0, some .ErrSyntax) ∨ ParseUint w s = (2 ^ w - 1, some .ErrRange) := by
  unfold ParseUint
  by_cases hne : s = []
  · rw [if_pos hne]; exact Or.inl rfl
  · rw [if_neg hne]
    apply parseUintLoop_err _ s 0 (Nat.zero_le _)
    intro hh
    exact h ⟨hne, hh⟩

theorem decimalValue_cons (c : Fin 256) (rest : GoString) :
    decimalValue (c :: rest) =
      if (if c = 43 ∨ c = 45 then rest else c :: rest) ≠ [] ∧
          (if c = 43 ∨ c = 45 then rest else c :: rest).all isDigit = true then
        some (if c = 45 then -(digitsAcc 0 (if c = 43 ∨ c = 45 then rest else c :: rest) : Int)
              else (digitsAcc 0 (if c = 43 ∨ c = 45 then rest else c :: rest) : Int))
      else none := by
  unfold decimalValue
  by_cases h45 : c = 45
  · subst h45; simp
  · by_cases h43 : c = 43
    · subst h43; simp
    · simp [h45, h43]

theorem ParseInt_of_ParseUint_err (w : Nat) (hw : w = 32 ∨ w = 64) (c : Fin 256)
    (rest : GoString)
    (h : ParseUint w (if c = 43 ∨ c = 45 then rest else c :: rest) = (0, some .ErrSyntax) ∨
         ParseUint w (if c = 43 ∨ c = 45 then rest else c :: rest)
            = (2 ^ w - 1, some .ErrRange)) :
    (ParseInt w (c :: rest)).2 ≠ none := by
  simp only [ParseInt]
  rcases h with h | h
  · rw [h]; simp
  · rw [h]
    by_cases h45 : c = 45
    · rcases hw with rfl | rfl <;> simp [h45]
    · rcases hw with rfl | rfl <;> simp [h45]

theorem ParseInt_of_ParseUint_ok (w : Nat) (hw : w = 32 ∨ w = 64) (c : Fin 256)
    (rest : GoString) (v : Nat) (hv : v ≤ 2 ^ w - 1)
    (h : ParseUint w (if c = 43 ∨ c = 45 then rest else c :: rest) = (v, none)) :
    ParseInt w (c :: rest) =
      if c = 45 then
        (if v > 2 ^ (w - 1) then (wrapInt 64 (-(wrapInt 64 ((2 ^ (w - 1) : Nat) : Int))),
            some .ErrRange)
         else (-(v : Int), none))
      else
        (if v ≥ 2 ^ (w - 1) then (wrapInt 64 ((2 ^ (w - 1) - 1 : Nat) : Int), some .ErrRange)
         else ((v : Int), none)) := by
  simp only [ParseInt]
  rw [h]
  by_cases h45 : c = 45
  · simp only [h45, decide_True, Bool.not_true, Bool.false_eq_true, false_and, if_false,
      true_and, if_true]
    by_cases hgt : v > 2 ^ (w - 1)
    · simp [hgt]
    · simp only [hgt, if_false]
      have e : wrapInt 64 (-(wrapInt 64 (v : Int))) = -(v : Int) := by
        rcases hw with rfl | rfl <;> simp only [wrapInt] at * <;> norm_num at * <;> omega
      simp [e]
  · simp only [h45, decide_False, Bool.not_false, true_and, false_and, if_false]
    by_cases hge : v ≥ 2 ^ (w - 1)
    · simp [hge]
    · simp only [hge, if_false]
      have e : wrapInt 64 (v : Int) = (v : Int) := by
        rcases hw with rfl | rfl <;> simp only [wrapInt] at * <;> norm_num at * <;> omega
      simp [e]

theorem parsesAs_nil (w : Nat) : parsesAs w [] = none := rfl

theorem parsesAs_invalid (w : Nat) (c : Fin 256) (rest : GoString)
    (h : ¬ ((if c = 43 ∨ c = 45 then rest else c :: rest) ≠ [] ∧
          (if c = 43 ∨ c = 45 then rest else c :: rest).all isDigit = true)) :
    parsesAs w (c :: rest) = none := by
  unfold parsesAs
  rw [decimalValue_cons, if_neg h]

theorem parsesAs_valid (w : Nat) (c : Fin 256) (rest : GoString)
    (h : (if c = 43 ∨ c = 45 then rest else c :: rest) ≠ [] ∧
          (if c = 43 ∨ c = 45 then rest else c :: rest).all isDigit = true) :
    parsesAs w (c :: rest) =
      if c = 45 then
        (if digitsAcc 0 (if c = 43 ∨ c = 45 then rest else c :: rest) ≤ 2 ^ (w - 1) then
          some (-(digitsAcc 0 (if c = 43 ∨ c = 45 then rest else c :: rest) : Int)) else none)
      else
        (if digitsAcc 0 (if c = 43 ∨ c = 45 then rest else c :: rest) < 2 ^ (w - 1) then
          some (digitsAcc 0 (if c = 43 ∨ c = 45 then rest else c :: rest) : Int) else none) := by
  unfold parsesAs
  rw [decimalValue_cons, if_pos h]
  generalize digitsAcc 0 (if c = 43 ∨ c = 45 then rest else c :: rest) = v
  have hpow : ((2 ^ (w - 1) : Nat) : Int) = (2 : Int) ^ (w - 1) := by push_cast; rfl
  have hpos : 0 < 2 ^ (w - 1) := Nat.pos_of_ne_zero (by positivity)
  by_cases h45 : c = 45
  · simp only [h45, if_true]
    by_cases hr : v ≤ 2 ^ (w - 1)
    · have h1 : -(2 ^ (w - 1) : Int) ≤ -(v : Int) ∧ -(v : Int) < 2 ^ (w - 1) := by
        rw [← hpow]; omega
      simp only [h1, and_self, if_true, hr]
    · have h1 : ¬ (-(2 ^ (w - 1) : Int) ≤ -(v : Int) ∧ -(v : Int) < 2 ^ (w - 1)) := by
        rw [← hpow]; omega
      simp only [h1, if_false, hr]
  · simp only [h45, if_false]
    by_cases hr : v < 2 ^ (w - 1)
    · have h1 : -(2 ^ (w - 1) : Int) ≤ (v : Int) ∧ (v : Int) < 2 ^ (w - 1) := by
        rw [← hpow]; omega
      simp only [h1, and_self, if_true, hr]
    · have h1 : ¬ (-(2 ^ (w - 1) : Int) ≤ (v : Int) ∧ (v : Int) < 2 ^ (w - 1)) := by
        rw [← hpow]; omega
      simp only [h1, if_false, hr]

theorem ParseInt_spec (w : Nat) (hw : w = 32 ∨ w = 64) (s : GoString) :
    (∀ x : Int, parsesAs w s = some x → ParseInt w s = (x, none)) ∧
    (parsesAs w s = none → (ParseInt w s).2 ≠ none) := by
  cases s with
  | nil => exact ⟨fun x h => (by simp [parsesAs_nil] at h), fun _ => (by simp [ParseInt])⟩
  | cons c rest =>
    by_cases hvalid : (if c = 43 ∨ c = 45 then rest else c :: rest) ≠ [] ∧
          (if c = 43 ∨ c = 45 then rest else c :: rest).all isDigit = true
    · by_cases hb : digitsAcc 0 (if c = 43 ∨ c = 45 then rest else c :: rest) ≤ 2 ^ w - 1
      · have hu := ParseUint_ok w hw _ hvalid.1 hvalid.2 hb
        rw [parsesAs_valid w c rest hvalid, ParseInt_of_ParseUint_ok w hw c rest _ hb hu]
        generalize digitsAcc 0 (if c = 43 ∨ c = 45 then rest else c :: rest) = v
        by_cases h45 : c = 45
        · simp only [h45, if_true]
          by_cases hr : v ≤ 2 ^ (w - 1)
          · have hr' : ¬ (v > 2 ^ (w - 1)) := by omega
            simp [hr, hr']
          · have hr' : v > 2 ^ (w - 1) := by omega
            simp [hr, hr']
        · simp only [h45, if_false]
          by_cases hr : v < 2 ^ (w - 1)
          · have hr' : ¬ (v ≥ 2 ^ (w - 1)) := by omega
            simp [hr, hr']
          · have hr' : v ≥ 2 ^ (w - 1) := by omega
            simp [hr, hr']
      · have hu := ParseUint_err w (if c = 43 ∨ c = 45 then rest else c :: rest)
          (fun hh => hb hh.2.2)
        have he := ParseInt_of_ParseUint_err w hw c rest hu
        have hn : parsesAs w (c :: rest) = none := by
          rw [parsesAs_valid w c rest hvalid]
          have h1 : ¬ (digitsAcc 0 (if c = 43 ∨ c = 45 then rest else c :: rest)
              ≤ 2 ^ (w - 1)) := by
            rcases hw with rfl | rfl <;> norm_num at hb ⊢ <;> omega
          have h2 : ¬ (digitsAcc 0 (if c = 43 ∨ c = 45 then rest else c :: rest)
              < 2 ^ (w - 1)) := by
            rcases hw with rfl | rfl <;> norm_num at hb ⊢ <;> omega
          simp only [h1, h2, if_false, ite_self]
        exact ⟨fun x h => (by rw [hn] at h; cases h), fun _ => he⟩
    · have hu := ParseUint_err w (if c = 43 ∨ c = 45 then rest else c :: rest)
        (fun hh => hvalid ⟨hh.1, hh.2.1⟩)
      have he := ParseInt_of_ParseUint_err w hw c rest hu
      have hn := parsesAs_invalid w c rest hvalid
      exact ⟨fun x h => (by rw [hn] at h; cases h), fun _ => he⟩

theorem Atoi_slow (w : Nat) (s : GoString)
    (h : ¬ ((w = 32 ∧ 0 < s.length ∧ s.length < 10) ∨
            (w = 64 ∧ 0 < s.length ∧ s.length < 19))) :
    Atoi w s = (wrapInt w (ParseInt w s).1, (ParseInt w s).2) := by
  unfold Atoi
  simp only [h, if_false]

theorem Atoi_fast (w : Nat) (c : Fin 256) (rest : GoString)
    (h : (w = 32 ∧ 0 < (c :: rest).length ∧ (c :: rest).length < 10) ∨
         (w = 64 ∧ 0 < (c :: rest).length ∧ (c :: rest).length < 19)) :
    Atoi w (c :: rest) =
      if (c = 43 ∨ c = 45) ∧ (if c = 43 ∨ c = 45 then rest else c :: rest).length < 1 then
        (0, some .ErrSyntax)
      else
        match atoiLoop w (if c = 43 ∨ c = 45 then rest else c :: rest) 0 with
        | none => (0, some .ErrSyntax)
        | some n => (if c = 45 then wrapInt w (-n) else n, none) := by
  unfold Atoi
  simp only [h, if_true]
  have e : (c = 45 ∨ c = 43) = (c = 43 ∨ c = 45) := propext Or.comm
  simp only [e, decide_eq_true_eq]

theorem digitsAcc_fast_bound (w : Nat) (s : GoString)
    (h : (w = 32 ∧ s.length < 10) ∨ (w = 64 ∧ s.length < 19))
    (hd : s.all isDigit = true) : digitsAcc 0 s < 2 ^ (w - 1) := by
  have h1 := digitsAcc_lt s 0 hd
  simp only [Nat.zero_add, Nat.one_mul] at h1
  rcases h with ⟨rfl, hl⟩ | ⟨rfl, hl⟩
  · have h2 : 10 ^ s.length ≤ 10 ^ 9 := Nat.pow_le_pow_right (by decide) (by omega)
    have h3 : (10 : Nat) ^ 9 < 2 ^ (32 - 1) := by norm_num
    omega
  · have h2 : 10 ^ s.length ≤ 10 ^ 18 := Nat.pow_le_pow_right (by decide) (by omega)
    have h3 : (10 : Nat) ^ 18 < 2 ^ (64 - 1) := by norm_num
    omega

theorem Atoi_spec (w : Nat) (hw : w = 32 ∨ w = 64) (s : GoString) :
    (∀ x : Int, parsesAs w s = some x → Atoi w s = (x, none)) ∧
    (parsesAs w s = none → (Atoi w s).2 ≠ none) := by
  by_cases hfast : (w = 32 ∧ 0 < s.length ∧ s.length < 10) ∨
      (w = 64 ∧ 0 < s.length ∧ s.length < 19)
  · cases s with
    | nil => simp at hfast
    | cons c rest =>
      rw [Atoi_fast w c rest hfast]
      have hlen : (if c = 43 ∨ c = 45 then rest else c :: rest).length ≤ (c :: rest).length := by
        split <;> simp
      have hfast' : (w = 32 ∧ (if c = 43 ∨ c = 45 then rest else c :: rest).length < 10) ∨
          (w = 64 ∧ (if c = 43 ∨ c = 45 then rest else c :: rest).length < 19) := by
        rcases hfast with ⟨h1, _, h2⟩ | ⟨h1, _, h2⟩
        · exact Or.inl ⟨h1, by omega⟩
        · exact Or.inr ⟨h1, by omega⟩
      by_cases hvalid : (if c = 43 ∨ c = 45 then rest else c :: rest) ≠ [] ∧
          (if c = 43 ∨ c = 45 then rest else c :: rest).all isDigit = true
      · have hb := digitsAcc_fast_bound w _ hfast' hvalid.2
        have hloop := atoiLoop_some w hw _ 0 hvalid.2 hb
        have hne : ¬ ((c = 43 ∨ c = 45) ∧
            (if c = 43 ∨ c = 45 then rest else c :: rest).length < 1) := by
          intro hh
          exact hvalid.1 (List.length_eq_zero.mp (by omega))
        rw [if_neg hne, parsesAs_valid w c rest hvalid]
        simp only [Nat.cast_zero] at hloop
        rw [hloop]
        revert hb
        generalize digitsAcc 0 (if c = 43 ∨ c = 45 then rest else c :: rest) = v
        intro hb
        have hle : v ≤ 2 ^ (w - 1) := by omega
        have hneg : wrapInt w (-(v : Int)) = -(v : Int) := by
          apply wrapInt_eq_self w hw
          · have : ((v : Nat) : Int) < ((2 ^ (w - 1) : Nat) : Int) := by exact_mod_cast hb
            push_cast at this
            omega
          · have : (0 : Int) < 2 ^ (w - 1) := by positivity
            omega
        by_cases h45 : c = 45
        · simp [h45, hle, hneg]
        · simp [h45, hb]
      · rw [parsesAs_invalid w c rest hvalid]
        refine ⟨fun x h => (by cases h), fun _ => ?_⟩
        by_cases hsign : (c = 43 ∨ c = 45) ∧
            (if c = 43 ∨ c = 45 then rest else c :: rest).length < 1
        · rw [if_pos hsign]; simp
        · rw [if_neg hsign]
          have hd : (if c = 43 ∨ c = 45 then rest else c :: rest).all isDigit = false := by
            by_cases hne : (if c = 43 ∨ c = 45 then rest else c :: rest) = []
            · exfalso
              apply hsign
              by_cases hs : c = 43 ∨ c = 45
              · exact ⟨hs, by rw [hne]; simp⟩
              · rw [if_neg hs] at hne; cases hne
            · cases hall : (if c = 43 ∨ c = 45 then rest else c :: rest).all isDigit with
              | false => rfl
              | true => exact absurd ⟨hne, hall⟩ hvalid
          rw [atoiLoop_none w _ 0 hd]
          simp
  · rw [Atoi_slow w s hfast]
    obtain ⟨h1, h2⟩ := ParseInt_spec w hw s
    refine ⟨fun x hx => ?_, fun hn => h2 hn⟩
    rw [h1 x hx]
    have hr : -(2 ^ (w - 1) : Int) ≤ x ∧ x < 2 ^ (w - 1) := by
      unfold parsesAs at hx
      cases hdv : decimalValue s with
      | none => rw [hdv] at hx; cases hx
      | some v =>
        rw [hdv] at hx
        simp only at hx
        by_cases hin : -(2 ^ (w - 1) : Int) ≤ v ∧ v < 2 ^ (w - 1)
        · rw [if_pos hin] at hx
          cases hx
          exact hin
        · rw [if_neg hin] at hx; cases hx
    simp only [wrapInt_eq_self w hw x hr.1 hr.2]

theorem parsesAs_range (w : Nat) (s : GoString) (x : Int) (hx : parsesAs w s = some x) :
    -(2 ^ (w - 1) : Int) ≤ x ∧ x < 2 ^ (w - 1) := by
  unfold parsesAs at hx
  cases hdv : decimalValue s with
  | none => rw [hdv] at hx; cases hx
  | some v =>
    rw [hdv] at hx
    simp only at hx
    by_cases hin : -(2 ^ (w - 1) : Int) ≤ v ∧ v < 2 ^ (w - 1)
    · rw [if_pos hin] at hx
      cases hx
      exact hin
    · rw [if_neg hin] at hx; cases hx

theorem wrapInt64_of_range (w : Nat) (hw : w = 32 ∨ w = 64) (x : Int)
    (h1 : -(2 ^ (w - 1) : Int) ≤ x) (h2 : x < 2 ^ (w - 1)) : wrapInt 64 x = x := by
  rcases hw with rfl | rfl <;> simp only [wrapInt] at * <;> norm_num at * <;> omega

/-- C5: on a platform with `int` of 32 or 64 bits, for every build-timestamp string that does
not parse as a decimal integer of that size (empty, not a decimal numeral, or out of range)
`strconv.Atoi` returns an error and the timestamp is 0, the Unix epoch; for a string that
does parse, `strconv.Atoi` returns the integer without error and this integer is the number
of Unix seconds used. The empty string does not parse. -/
theorem build_timestamp_parse_or_epoch (w : Nat) (hw : w = 32 ∨ w = 64)
    (BuildStmp : GoString) :
    (parsesAs w BuildStmp = none →
      (Atoi w BuildStmp).2 ≠ none ∧ timeStmp w BuildStmp = 0 ∧
        buildUnixSeconds w BuildStmp = 0) ∧
    (∀ x : Int, parsesAs w BuildStmp = some x →
      Atoi w BuildStmp = (x, none) ∧ timeStmp w BuildStmp = x ∧
        buildUnixSeconds w BuildStmp = x) ∧
    parsesAs w [] = none := by
  obtain ⟨hok, herr⟩ := Atoi_spec w hw BuildStmp
  refine ⟨fun hn => ?_, fun x hx => ?_, rfl⟩
  · have he := herr hn
    have ht : timeStmp w BuildStmp = 0 := by
      unfold timeStmp
      generalize Atoi w BuildStmp = r at he
      obtain ⟨n, e⟩ := r
      cases e with
      | none => exact absurd rfl he
      | some e => rfl
    refine ⟨he, ht, ?_⟩
    unfold buildUnixSeconds
    rw [ht]
    rfl
  · have ha := hok x hx
    have ht : timeStmp w BuildStmp = x := by
      unfold timeStmp
      rw [ha]
    refine ⟨ha, ht, ?_⟩
    unfold buildUnixSeconds
    rw [ht]
    have hr := parsesAs_range w BuildStmp x hx
    exact wrapInt64_of_range w hw x hr.1 hr.2

set_option maxRecDepth 100000 in
/-- Timestamps on a 64-bit platform: empty, not a numeral, out of range, and a valid one. -/
theorem build_timestamp_parse_or_epoch_witness :
    (64 = 32 ∨ 64 = 64) ∧
    parsesAs 64 (bytesOf "") = none ∧ parsesAs 64 (bytesOf "12a") = none ∧
    parsesAs 64 (bytesOf "9223372036854775808") = none ∧
    timeStmp 64 (bytesOf "") = 0 ∧
    timeStmp 64 (bytesOf "12a") = 0 ∧
    timeStmp 64 (bytesOf "9223372036854775808") = 0 ∧
    timeStmp 64 (bytesOf "1700000000") = 1700000000 :=
  ⟨Or.inr rfl, by decide, by decide, by decide,
    ((build_timestamp_parse_or_epoch 64 (Or.inr rfl) (bytesOf "")).1 (by decide)).2.1,
    ((build_timestamp_parse_or_epoch 64 (Or.inr rfl) (bytesOf "12a")).1 (by decide)).2.1,
    ((build_timestamp_parse_or_epoch 64 (Or.inr rfl)
        (bytesOf "9223372036854775808")).1 (by decide)).2.1,
    ((build_timestamp_parse_or_epoch 64 (Or.inr rfl)
        (bytesOf "1700000000")).2.1 1700000000 (by decide)).2.1⟩

end Todolist
